import Mathlib

/-!
# ATtiny10 one-wire thermometer: verification of the bus driver,
# CRC validator, read sequencer, display encoder and sleep scheduler

Shallow embedding of `ATtiny10Thermometer.ino`.  Machine bytes are `Nat`
values below 256 (the C code's `uint8_t`); 16-bit words are `Nat` below
65536; the signed 16-bit return of `Temperature` is an `Int`.  The
single-wire bus is modelled by an explicit timed state: a microsecond
clock plus a trace of timestamped pin events, and the electrical level
seen by `PinRead` is an environment function `Nat → Bool`
(`true` = line high via the pull-up, `false` = line pulled low).

The file lists every definition first, then the lemmas and the claim
theorems.
-/

set_option maxRecDepth 100000

namespace ATtiny10

/-! ## Definitions: CRC validator (`OneWireCRC`, source lines 98-105) -/

/-- One round of the inner bit loop of `OneWireCRC`:
`crc = crc>>1 ^ ((crc & 1) ? 0x8c : 0)`. -/
def crc8round (crc : Nat) : Nat :=
  (crc >>> 1) ^^^ (if crc &&& 1 = 1 then 0x8c else 0)

/-- The eight bit rounds applied after a byte has been XORed in
(the inner `for (int i=0; i<8; i++)` loop). -/
def crc8rounds (crc : Nat) : Nat :=
  crc8round^[8] crc

/-- `OneWireCRC(bytes)`: fold the outer loop over byte indices
`j = 0 .. bytes-1`, reading `DataBytes[j]` from the buffer list. -/
def OneWireCRC (buf : List Nat) (bytes : Nat) : Nat :=
  (List.range bytes).foldl (fun crc j => crc8rounds (crc ^^^ buf.getD j 0)) 0

/-- CRC of a whole byte list (the same fold, without the index
indirection); agrees with `OneWireCRC` when the count matches. -/
def listCRC (l : List Nat) : Nat :=
  l.foldl (fun crc b => crc8rounds (crc ^^^ b)) 0

/-- Reference round, following the spec text (claim C3): shift the
accumulator right by 1 and XOR in 0x8C exactly when the bit shifted
out was 1. -/
def specCRCround (c : Nat) : Nat :=
  if c.testBit 0 then (c >>> 1) ^^^ 0x8c else c >>> 1

/-- Reference byte step: XOR the byte into the accumulator, then run
8 reference rounds. -/
def specCRCbyte (c b : Nat) : Nat :=
  specCRCround^[8] (c ^^^ b)

/-- Reference CRC-8 over a byte list, starting from accumulator 0. -/
def specCRC (bytes : List Nat) : Nat :=
  bytes.foldl specCRCbyte 0

/-- A single-bit error vector: `len` zero bytes, except byte `j` holds
the mask `m`. -/
def errVec (len j m : Nat) : List Nat :=
  (List.replicate len 0).set j m

/-- Flip bit `k` of byte `j` of the buffer. -/
def flipBit (buf : List Nat) (j k : Nat) : List Nat :=
  buf.set j (buf.getD j 0 ^^^ (1 <<< k))

/-! ## Definitions: timed bus model

The one-wire pin primitives (source lines 32-56) act on a microsecond
clock and log timestamped pin events.  `PinRead` samples an environment
`env : Nat → Bool` giving the electrical level of the line at each
microsecond (`true` = high). -/

/-- A pin event: the master starts driving the line low, releases it to
the pull-up, or samples it. -/
inductive Ev
  | low
  | release
  | sample
  deriving DecidableEq, Repr

/-- Bus-driver state: elapsed microseconds and the event trace. -/
structure W where
  time : Nat
  trace : List (Nat × Ev)
  deriving DecidableEq, Repr

/-- The state at the start of a bus transaction. -/
def initW : W := ⟨0, []⟩

/-- `PinLow()`: start driving the line low (sets the DDRB bit). -/
def PinLow (s : W) : W :=
  ⟨s.time, s.trace ++ [(s.time, Ev.low)]⟩

/-- `PinRelease()`: stop driving the line (clears the DDRB bit); the
pull-up restores the high level. -/
def PinRelease (s : W) : W :=
  ⟨s.time, s.trace ++ [(s.time, Ev.release)]⟩

/-- `DelayMicros(micro)`: busy-wait; only the clock advances. -/
def DelayMicros (micro : Nat) (s : W) : W :=
  ⟨s.time + micro, s.trace⟩

/-- `PinRead()`: sample the line level, returning 0 (low) or 1 (high). -/
def PinRead (env : Nat → Bool) (s : W) : Nat × W :=
  (if env s.time then 1 else 0, ⟨s.time, s.trace ++ [(s.time, Ev.sample)]⟩)

/-- `LowRelease(low, high)`: drive low for `low` µs, release for
`high` µs (source lines 51-56). -/
def LowRelease (low high : Nat) (s : W) : W :=
  DelayMicros high (PinRelease (DelayMicros low (PinLow s)))

/-! ## Definitions: one-wire primitives (source lines 63-95) -/

/-- `OneWireReset()`: `LowRelease(480, 70)`, sample the pin, wait a
further 410 µs, and return the sample (0 = device present). -/
def OneWireReset (env : Nat → Bool) (s : W) : Nat × W :=
  let s1 := LowRelease 480 70 s
  let r := PinRead env s1
  (r.fst, DelayMicros 410 r.snd)

/-- The loop body of `OneWireWrite`, peeled once per remaining bit:
`del = (data & 1) ? 6 : 60; LowRelease(del, 70 - del); data >>= 1`. -/
def owWriteAux (bitsLeft data : Nat) (s : W) : W :=
  match bitsLeft with
  | 0 => s
  | n + 1 =>
      let del := if data &&& 1 = 1 then 6 else 60
      owWriteAux n (data >>> 1) (LowRelease del (70 - del) s)

/-- `OneWireWrite(data)`: emit the 8 bits of `data`, LSB first. -/
def OneWireWrite (data : Nat) (s : W) : W :=
  owWriteAux 8 data s

/-- The loop body of `OneWireRead`, peeled once per remaining bit:
`LowRelease(6, 9); data = data | PinRead()<<i; DelayMicros(55)`. -/
def owReadAux (env : Nat → Bool) (bitsLeft i data : Nat) (s : W) : Nat × W :=
  match bitsLeft with
  | 0 => (data, s)
  | n + 1 =>
      let s1 := LowRelease 6 9 s
      let r := PinRead env s1
      owReadAux env n (i + 1) (data ||| r.fst <<< i) (DelayMicros 55 r.snd)

/-- `OneWireRead()`: sample 8 bit slots, assembling the byte LSB
first. -/
def OneWireRead (env : Nat → Bool) (s : W) : Nat × W :=
  owReadAux env 8 0 0 s

/-- The line level implied by a drive trace at time `t`: high unless
the most recent drive event at or before `t` is `low`.  Sampling events
do not drive the line.  Used to play a write trace back into a read
(the loopback bus of claim C6). -/
def lineAt (trace : List (Nat × Ev)) (t : Nat) : Bool :=
  match (trace.filter fun e =>
      decide (e.fst ≤ t) && decide (e.snd ≠ Ev.sample)).getLast? with
  | some (_, Ev.low) => false
  | _ => true

/-- The drive timings of one written bit, as the spec words them
(claim C5): a 1 is low 6 µs / released 64 µs, a 0 is low 60 µs /
released 10 µs. -/
def writeBitTimings (b : Bool) : Nat × Nat :=
  if b then (6, 64) else (60, 10)

/-- The pulse-pair trace the spec prescribes for one written byte:
slot `i` (bit `i` of the byte, LSB first) starts at `70*i` with a low
event and releases after the bit's low time; each slot lasts
`low + high = 70` µs. -/
def writeSpecTrace (data : Nat) : List (Nat × Ev) :=
  ((List.range 8).map fun i =>
    [(70 * i, Ev.low),
     (70 * i + (writeBitTimings (data.testBit i)).fst, Ev.release)]).flatten

/-! ## Definitions: conversion-wait poll loop (source line 164) -/

/-- The conversion wait of `Temperature`:
`while (OneWireRead() != 0xFF);`, with explicit fuel so the unbounded
loop is a total function.  `some s'` is the state after the first
`OneWireRead` whose byte is 0xFF; `none` means the fuel ran out with
the sensor still holding the line low. -/
def pollLoop (env : Nat → Bool) : Nat → W → Option W
  | 0, _ => none
  | fuel + 1, s =>
      let r := OneWireRead env s
      if r.fst = 0xFF then some r.snd else pollLoop env fuel r.snd

/-- A bus on which the converting sensor holds the line low before
time `R` and releases it from `R` on. -/
def releaseEnv (R : Nat) : Nat → Bool :=
  fun t => decide (R ≤ t)

/-- A bus whose line is high only during the first read's first bit
slot (sample at 15 µs) and again from 560 µs on: the first sampled bit
of the poll reads 1 although the first polled byte is not 0xFF. -/
def midByteEnv : Nat → Bool :=
  fun t => decide (t < 20 ∨ 560 ≤ t)

/-! ## Definitions: sensor read sequencer (`Temperature`,
source lines 158-174) -/

/-- The two terminal error reports of a read cycle; in the firmware
they are signalled as `DisplayError(RedPin)` (device not found) and
`DisplayError(GreenPin)` (CRC error). -/
inductive TempError
  | DeviceNotFound
  | CrcMismatch
  deriving DecidableEq, Repr

/-- What a call to `Temperature()` produces: the returned `int` and
which error, if any, was displayed during the call. -/
structure TempResult where
  value : Int
  error : Option TempError
  deriving DecidableEq, Repr

/-- `DataWords[0]`: the union reinterpretation of scratchpad bytes 0
and 1 as one little-endian 16-bit word (AVR is little-endian). -/
def DataWords0 (buf : List Nat) : Nat :=
  buf.getD 0 0 + 256 * buf.getD 1 0

/-- Conversion of the unsigned 16-bit word to the signed 16-bit `int`
that `Temperature` returns (avr-gcc wraps modulo 2^16). -/
def toSigned16 (w : Nat) : Int :=
  if w < 0x8000 then (w : Int) else (w : Int) - 0x10000

/-- `Temperature()`, parameterised by what the bus produced during the
call: `resetData` is the byte the initial `OneWireReset` returned
(0 = device present) and `scratch` is the 9-byte buffer filled by
`OneWireReadBytes(9)`.  If the reset failed, display the red error and
return 0; otherwise, if `OneWireCRC(9) == 0`, return `DataWords[0]`;
otherwise display the green error and return 0. -/
def Temperature (resetData : Nat) (scratch : List Nat) : TempResult :=
  if resetData ≠ 0 then ⟨0, some TempError.DeviceNotFound⟩
  else if OneWireCRC scratch 9 = 0 then ⟨toSigned16 (DataWords0 scratch), none⟩
  else ⟨0, some TempError.CrcMismatch⟩

/-! ## Definitions: LED display encoder (`Flash`,
source lines 130-139) -/

/-- One LED pulse: red or green. -/
inductive LEDPulse
  | red
  | green
  deriving DecidableEq, Repr

/-- The loop body of `Flash`, peeled per remaining bit; `bitsLeft`
counts down so the bit index examined is `bitsLeft - 1` (the C loop
runs `i = 7 .. 0`), and `zeros` is the flag that becomes true at the
first emitted bit. -/
def flashAux (value : Nat) (bitsLeft : Nat) (zeros : Bool) : List LEDPulse :=
  match bitsLeft with
  | 0 => []
  | n + 1 =>
      let b := value >>> n &&& 1
      if zeros = true ∨ b = 1 ∨ n = 0 then
        (if value >>> n &&& 1 = 1 then LEDPulse.red else LEDPulse.green) ::
          flashAux value n true
      else flashAux value n zeros

/-- `Flash(value)`: flash the 8-bit value, skipping leading zeros. -/
def Flash (value : Nat) : List LEDPulse :=
  flashAux value 8 false

/-- The index of the most significant set bit among bits 7..0, or 0
when no bit is set (the forced final zero-bit case). -/
def msbIndex (v : Nat) : Nat :=
  (((List.range 8).reverse).find? fun i => v.testBit i).getD 0

/-- The pulse list the spec prescribes (claim C9): one pulse per bit
from the most significant set bit (bit 0 when the value is 0) down to
bit 0, red for a 1 bit and green for a 0 bit. -/
def flashSpecList (value : Nat) : List LEDPulse :=
  ((List.range (msbIndex value + 1)).reverse).map fun i =>
    if value.testBit i then LEDPulse.red else LEDPulse.green

/-! ## Definitions: low-power sleep scheduler (`WDDelay` and
`ISR(WDT_vect)`, source lines 144-153) -/

/-- Watchdog/sleep hardware state: the `WDTCSR` control register (WDIE
is bit 6), the watchdog pending-interrupt latch, and a counter of wake
events taken so far. -/
structure WDState where
  wdtcsr : Nat
  wdif : Bool
  wakes : Nat
  deriving DecidableEq, Repr

/-- The WDIE bit position in `WDTCSR`. -/
def WDIEbit : Nat := 6

/-- `ISR(WDT_vect)`: `WDTCSR = 0<<WDIE` — its only action is to clear
the watchdog interrupt enable flag. -/
def wdtISR (s : WDState) : WDState :=
  { s with wdtcsr := 0 <<< WDIEbit }

/-- The register write of `WDDelay(n)`:
`WDTCSR = 1<<WDIE | (n & 0x8)<<2 | (n & 0x7)` — arm the interrupt and
select the prescale for code `n`. -/
def wdArm (n : Nat) (s : WDState) : WDState :=
  { s with wdtcsr := 1 <<< WDIEbit ||| ((n &&& 0x8) <<< 2) ||| (n &&& 0x7) }

/-- Hardware model of `sleep_enable(); sleep_cpu()` in power-down mode:
the CPU suspends until the watchdog times out, which sets the pending
latch; if WDIE is enabled the interrupt is taken — one wake event, with
the latch cleared by hardware and the handler `wdtISR` run — and
execution resumes after `sleep_cpu()`.  With WDIE clear the MCU never
wakes (`none`). -/
def sleepCpu (s : WDState) : Option WDState :=
  let s1 : WDState := { s with wdif := true }
  if s1.wdtcsr.testBit WDIEbit then
    some (wdtISR { s1 with wdif := false, wakes := s1.wakes + 1 })
  else none

/-- `WDDelay(n)`: arm the watchdog interrupt, then sleep. -/
def WDDelay (n : Nat) (s : WDState) : Option WDState :=
  sleepCpu (wdArm n s)

/-! ## Lemmas: CRC bridges -/

theorem OneWireCRC_succ (buf : List Nat) (m : Nat) :
    OneWireCRC buf (m + 1) = crc8rounds (OneWireCRC buf m ^^^ buf.getD m 0) := by
  rw [OneWireCRC, List.range_succ, List.foldl_append]
  rfl

theorem listCRC_snoc (l : List Nat) (b : Nat) :
    listCRC (l ++ [b]) = crc8rounds (listCRC l ^^^ b) := by
  rw [listCRC, List.foldl_append]
  rfl

theorem OneWireCRC_eq_listCRC_take (buf : List Nat) (n : Nat)
    (h : n ≤ buf.length) :
    OneWireCRC buf n = listCRC (buf.take n) := by
  induction n with
  | zero =>
      rw [OneWireCRC, listCRC, List.range_zero, List.take_zero,
        List.foldl_nil, List.foldl_nil]
  | succ m ih =>
      have hm : m ≤ buf.length := Nat.le_of_succ_le h
      have hget : buf[m]? = some (buf.getD m 0) := by
        rw [List.getD_eq_getElem?_getD]
        cases hx : buf[m]? with
        | none =>
            exact absurd (List.getElem?_eq_none_iff.mp hx) (Nat.not_le_of_lt h)
        | some v => simp [hx]
      rw [OneWireCRC_succ, ih hm, List.take_succ, hget, Option.toList_some,
        listCRC_snoc]

theorem OneWireCRC_eq_listCRC (buf : List Nat) (h : buf.length = 9) :
    OneWireCRC buf 9 = listCRC buf := by
  have := OneWireCRC_eq_listCRC_take buf 9 (by omega)
  rwa [List.take_of_length_le (by omega)] at this

theorem crc8round_eq_spec (c : Nat) : crc8round c = specCRCround c := by
  rw [crc8round, specCRCround, Nat.testBit_zero, Nat.and_one_is_mod]
  by_cases h : c % 2 = 1 <;> simp [h]

theorem specCRC_eq_listCRC (l : List Nat) : specCRC l = listCRC l := by
  have hfun : specCRCround = crc8round :=
    funext fun c => (crc8round_eq_spec c).symm
  rw [specCRC, listCRC]
  congr 1
  funext c b
  rw [specCRCbyte, hfun, crc8rounds]

/-! ## Lemmas: linearity of the CRC over bitwise XOR -/

theorem natXorLeftComm (a b c : Nat) : a ^^^ (b ^^^ c) = b ^^^ (a ^^^ c) := by
  rw [← Nat.xor_assoc, Nat.xor_comm a b, Nat.xor_assoc]

theorem crc8round_xor (a b : Nat) :
    crc8round (a ^^^ b) = crc8round a ^^^ crc8round b := by
  have hs : (a ^^^ b) >>> 1 = (a >>> 1) ^^^ (b >>> 1) := by
    apply Nat.eq_of_testBit_eq
    intro i
    simp [Nat.testBit_shiftRight, Nat.testBit_xor]
  have hand : (a ^^^ b) &&& 1 = (a &&& 1) ^^^ (b &&& 1) :=
    Nat.and_xor_distrib_right
  rw [crc8round, crc8round, crc8round, hs, hand]
  rcases Nat.mod_two_eq_zero_or_one a with h1 | h1 <;>
    rcases Nat.mod_two_eq_zero_or_one b with h2 | h2 <;>
      simp [Nat.and_one_is_mod, h1, h2, Nat.xor_assoc, Nat.xor_comm,
        natXorLeftComm, Nat.xor_cancel_left]

theorem crc8rounds_def (c : Nat) :
    crc8rounds c =
      crc8round (crc8round (crc8round (crc8round
        (crc8round (crc8round (crc8round (crc8round c))))))) := by
  rw [crc8rounds]
  rfl

theorem crc8rounds_xor (a b : Nat) :
    crc8rounds (a ^^^ b) = crc8rounds a ^^^ crc8rounds b := by
  simp only [crc8rounds_def, crc8round_xor]

theorem listCRC_fold_xor :
    ∀ (l1 l2 : List Nat) (c1 c2 : Nat), l1.length = l2.length →
      (List.zipWith (· ^^^ ·) l1 l2).foldl
          (fun crc b => crc8rounds (crc ^^^ b)) (c1 ^^^ c2) =
        (l1.foldl (fun crc b => crc8rounds (crc ^^^ b)) c1) ^^^
          (l2.foldl (fun crc b => crc8rounds (crc ^^^ b)) c2)
  | [], [], c1, c2, _ => by simp
  | [], y :: l2, c1, c2, h => by simp at h
  | x :: l1, [], c1, c2, h => by simp at h
  | x :: l1, y :: l2, c1, c2, h => by
      have hlen : l1.length = l2.length := by simpa using h
      have hstep : (c1 ^^^ c2) ^^^ (x ^^^ y) = (c1 ^^^ x) ^^^ (c2 ^^^ y) := by
        simp [Nat.xor_assoc, Nat.xor_comm, natXorLeftComm]
      rw [List.zipWith_cons_cons, List.foldl_cons, List.foldl_cons,
        List.foldl_cons, hstep, crc8rounds_xor]
      exact listCRC_fold_xor l1 l2 _ _ hlen

theorem listCRC_xor (l1 l2 : List Nat) (h : l1.length = l2.length) :
    listCRC (List.zipWith (· ^^^ ·) l1 l2) = listCRC l1 ^^^ listCRC l2 := by
  have h0 : (0 : Nat) ^^^ 0 = 0 := rfl
  rw [listCRC, listCRC, listCRC, ← listCRC_fold_xor l1 l2 0 0 h, h0]

theorem zipWith_xor_zero :
    ∀ l : List Nat, List.zipWith (· ^^^ ·) l (List.replicate l.length 0) = l
  | [] => rfl
  | x :: l => by
      rw [List.length_cons, List.replicate_succ, List.zipWith_cons_cons,
        Nat.xor_zero, zipWith_xor_zero l]

theorem set_xor_as_zip :
    ∀ (buf : List Nat) (j m : Nat), j < buf.length →
      buf.set j (buf.getD j 0 ^^^ m) =
        List.zipWith (· ^^^ ·) buf (errVec buf.length j m)
  | [], j, m, h => by simp at h
  | x :: buf, 0, m, _ => by
      rw [errVec, List.length_cons, List.replicate_succ]
      rw [List.getD_cons_zero, List.set_cons_zero, List.set_cons_zero,
        List.zipWith_cons_cons, Nat.xor_comm x m, Nat.xor_comm m x]
      rw [zipWith_xor_zero buf]
  | x :: buf, j + 1, m, h => by
      have hj : j < buf.length := by simpa using h
      rw [errVec, List.length_cons, List.replicate_succ]
      rw [List.getD_cons_succ, List.set_cons_succ, List.set_cons_succ,
        List.zipWith_cons_cons, Nat.xor_zero]
      rw [set_xor_as_zip buf j m hj, errVec]

/-! ## Claims C3 and C8: the CRC validator -/

/-- Claim C3: for every buffer and byte count (within the buffer),
`OneWireCRC` equals the reference CRC-8 the spec describes, and a
9-byte buffer (including its trailing CRC byte) passes the code's
validity check `OneWireCRC(9) == 0` exactly when the reference CRC of
the buffer is 0. -/
theorem C3_crc_matches_reference (buf : List Nat) (n : Nat)
    (h : n ≤ buf.length) :
    OneWireCRC buf n = specCRC (buf.take n) ∧
      (buf.length = 9 → (OneWireCRC buf 9 = 0 ↔ specCRC buf = 0)) := by
  constructor
  · rw [OneWireCRC_eq_listCRC_take buf n h, specCRC_eq_listCRC]
  · intro h9
    rw [OneWireCRC_eq_listCRC buf h9, specCRC_eq_listCRC]

/-- Claim C3 witness on a genuine DS18B20 scratchpad capture (CRC byte
0x1C). -/
theorem C3_crc_matches_reference_witness :
    9 ≤ ([0x50, 0x05, 0x4B, 0x46, 0x7F, 0xFF, 0x0C, 0x10, 0x1C] : List Nat).length ∧
      OneWireCRC [0x50, 0x05, 0x4B, 0x46, 0x7F, 0xFF, 0x0C, 0x10, 0x1C] 9 =
        specCRC ([0x50, 0x05, 0x4B, 0x46, 0x7F, 0xFF, 0x0C, 0x10, 0x1C].take 9) :=
  ⟨by decide,
    (C3_crc_matches_reference
      [0x50, 0x05, 0x4B, 0x46, 0x7F, 0xFF, 0x0C, 0x10, 0x1C] 9 (by decide)).1⟩

theorem errVec_crc_ne :
    ∀ j : Fin 9, ∀ k : Fin 8, listCRC (errVec 9 j.val (1 <<< k.val)) ≠ 0 := by
  decide

/-- Claim C8: flipping any single bit of a 9-byte buffer whose CRC is 0
yields a buffer whose CRC is nonzero — the checksum detects every
single-bit error. -/
theorem C8_crc_detects_single_bit_flips (buf : List Nat)
    (hlen : buf.length = 9) (hcrc : OneWireCRC buf 9 = 0) (j k : Nat)
    (hj : j < 9) (hk : k < 8) :
    OneWireCRC (flipBit buf j k) 9 ≠ 0 := by
  have hlen' : (flipBit buf j k).length = 9 := by simp [flipBit, hlen]
  rw [OneWireCRC_eq_listCRC _ hlen']
  rw [flipBit, set_xor_as_zip buf j _ (by omega), hlen]
  rw [listCRC_xor buf (errVec 9 j (1 <<< k)) (by simp [errVec, hlen])]
  rw [← OneWireCRC_eq_listCRC buf hlen, hcrc]
  rw [Nat.zero_xor]
  exact errVec_crc_ne ⟨j, hj⟩ ⟨k, hk⟩

/-- Claim C8 witness: the all-zero buffer has CRC 0, and flipping its
bit 0 breaks the CRC. -/
theorem C8_crc_detects_single_bit_flips_witness :
    (List.replicate 9 (0 : Nat)).length = 9 ∧
      OneWireCRC (List.replicate 9 0) 9 = 0 ∧
      OneWireCRC (flipBit (List.replicate 9 0) 0 0) 9 ≠ 0 :=
  ⟨by decide, by decide,
    C8_crc_detects_single_bit_flips (List.replicate 9 0) (by decide)
      (by decide) 0 0 (by decide) (by decide)⟩

/-! ## Claims C4, C5, C6: reset, write and loopback round-trip -/

/-- Claim C4: `OneWireReset` drives the line low at time 0, releases it
at 480 µs, samples at 550 µs (70 µs after release), and returns at
960 µs (410 µs after the sample); it reports a device present (return
value 0) exactly when the sampled line reads low. -/
theorem C4_reset_timing_and_presence (env : Nat → Bool) :
    (OneWireReset env initW).snd.trace =
        [(0, Ev.low), (480, Ev.release), (550, Ev.sample)] ∧
      (OneWireReset env initW).snd.time = 960 ∧
      ((OneWireReset env initW).fst = 0 ↔ env 550 = false) := by
  cases h : env 550 <;>
    simp [OneWireReset, LowRelease, PinLow, PinRelease, DelayMicros,
      PinRead, initW, h]

theorem write_trace_eq_spec :
    ∀ d : Fin 256,
      (OneWireWrite d.val initW).trace = writeSpecTrace d.val ∧
        (OneWireWrite d.val initW).time = 560 := by
  decide

/-- Claim C5: for every byte, `OneWireWrite` emits its 8 bits LSB
first, one pulse pair per bit — a 1 bit drives low for 6 µs then
releases for 64 µs, a 0 bit drives low for 60 µs then releases for
10 µs (so each slot is 70 µs and the whole byte takes 560 µs). -/
theorem C5_write_encoding (data : Nat) (h : data < 256) :
    (OneWireWrite data initW).trace = writeSpecTrace data ∧
      (OneWireWrite data initW).time = 560 :=
  write_trace_eq_spec ⟨data, h⟩

/-- Claim C5 witness at the byte 0xA5. -/
theorem C5_write_encoding_witness :
    (0xA5 : Nat) < 256 ∧
      (OneWireWrite 0xA5 initW).trace = writeSpecTrace 0xA5 :=
  ⟨by decide, (C5_write_encoding 0xA5 (by decide)).1⟩

theorem loopback_roundtrip :
    ∀ d : Fin 256,
      (OneWireRead (fun t => lineAt (OneWireWrite d.val initW).trace t)
          initW).fst = d.val := by
  decide

/-- Claim C6: writing any byte with `OneWireWrite` and reading a byte
back with `OneWireRead` over a loopback bus — the line level implied by
the write trace on the same time base — returns the original byte.
`OneWireRead` samples each slot at offset 15 µs, where a written 1
(released at offset 6) reads high and a written 0 (still driven until
offset 60) reads low. -/
theorem C6_write_read_roundtrip (data : Nat) (h : data < 256) :
    (OneWireRead (fun t => lineAt (OneWireWrite data initW).trace t)
        initW).fst = data :=
  loopback_roundtrip ⟨data, h⟩

/-- Claim C6 witness at the byte 0xA5 singled out by the spec. -/
theorem C6_write_read_roundtrip_witness :
    (0xA5 : Nat) < 256 ∧
      (OneWireRead (fun t => lineAt (OneWireWrite 0xA5 initW).trace t)
          initW).fst = 0xA5 :=
  ⟨by decide, C6_write_read_roundtrip 0xA5 (by decide)⟩

/-! ## Claim C2: the conversion-wait poll is byte-granular -/

theorem owRead_time (env : Nat → Bool) (s : W) :
    (OneWireRead env s).snd.time = s.time + 560 := by
  simp [OneWireRead, owReadAux, LowRelease, PinLow, PinRelease,
    DelayMicros, PinRead]

theorem owRead_release_hi (R : Nat) (s : W) (h : R ≤ s.time + 15) :
    (OneWireRead (releaseEnv R) s).fst = 255 := by
  have e1 : releaseEnv R (s.time + 15) = true := by simp [releaseEnv]; omega
  have e2 : releaseEnv R (s.time + 85) = true := by simp [releaseEnv]; omega
  have e3 : releaseEnv R (s.time + 155) = true := by simp [releaseEnv]; omega
  have e4 : releaseEnv R (s.time + 225) = true := by simp [releaseEnv]; omega
  have e5 : releaseEnv R (s.time + 295) = true := by simp [releaseEnv]; omega
  have e6 : releaseEnv R (s.time + 365) = true := by simp [releaseEnv]; omega
  have e7 : releaseEnv R (s.time + 435) = true := by simp [releaseEnv]; omega
  have e8 : releaseEnv R (s.time + 505) = true := by simp [releaseEnv]; omega
  simp [OneWireRead, owReadAux, LowRelease, PinLow, PinRelease, DelayMicros,
    PinRead, e1, e2, e3, e4, e5, e6, e7, e8]

theorem owRead_release_lo (R : Nat) (s : W) (h : s.time + 15 < R) :
    (OneWireRead (releaseEnv R) s).fst ≠ 255 := by
  have e1 : releaseEnv R (s.time + 15) = false := by simp [releaseEnv]; omega
  intro hcontra
  have hbit := congrArg (fun x => Nat.testBit x 0) hcontra
  simp [OneWireRead, owReadAux, LowRelease, PinLow, PinRelease, DelayMicros,
    PinRead, e1, Nat.testBit_or, Nat.testBit_shiftLeft] at hbit

theorem pollLoop_release :
    ∀ (fuel : Nat) (s : W) (R : Nat),
      (∃ k, k < fuel ∧ R ≤ s.time + 560 * k + 15) →
      ∃ s' k, pollLoop (releaseEnv R) fuel s = some s' ∧
        s'.time = s.time + 560 * (k + 1) ∧
        R ≤ s.time + 560 * k + 15 ∧
        ∀ j, j < k → s.time + 560 * j + 15 < R
  | 0, s, R, h => by
      obtain ⟨k, hk, _⟩ := h
      omega
  | fuel + 1, s, R, h => by
      by_cases hR : R ≤ s.time + 15
      · refine ⟨(OneWireRead (releaseEnv R) s).snd, 0, ?_, ?_, ?_, ?_⟩
        · rw [pollLoop]
          simp [owRead_release_hi R s hR]
        · simp [owRead_time]
        · omega
        · intro j hj; omega
      · obtain ⟨k, hk, hRk⟩ := h
        have hne := owRead_release_lo R s (by omega)
        have hrec := pollLoop_release fuel (OneWireRead (releaseEnv R) s).snd R
          ⟨k - 1, by omega, by rw [owRead_time]; omega⟩
        obtain ⟨s', k', hp, ht, hb, hj⟩ := hrec
        refine ⟨s', k' + 1, ?_, ?_, ?_, ?_⟩
        · rw [pollLoop]
          simp [hne, hp]
        · rw [ht, owRead_time]; ring
        · rw [owRead_time] at hb; omega
        · intro j hj'
          cases j with
          | zero => simpa using (by omega : s.time + 0 + 15 < R)
          | succ j' =>
              have hlt := hj j' (by omega)
              rw [owRead_time] at hlt
              omega

/-- Claim C2 counterexample: the poll does not exit as soon as a read
bit is 1.  On `midByteEnv` the very first sampled bit of the poll (at
15 µs) reads 1, yet the first polled byte is 0x01, not 0xFF, so the
loop runs a full second byte read and only then exits (at 1120 µs =
two whole `OneWireRead` calls), because the code's condition is
`OneWireRead() != 0xFF` on whole bytes, not a test of a single bit. -/
theorem C2_poll_counterexample :
    Nat.testBit (OneWireRead midByteEnv initW).fst 0 = true ∧
      (OneWireRead midByteEnv initW).fst ≠ 0xFF ∧
      (pollLoop midByteEnv 5 initW).map W.time = some 1120 := by
  decide

/-- Claim C2 amended: the conversion wait repeatedly reads a full byte
(8 bit slots, 560 µs each) and exits on the first byte that reads 0xFF,
i.e. all 8 sampled bits 1; on a sensor that holds the line low until
release time `R`, no byte whose first sample falls before `R` ends the
loop, and the first byte read entirely after release does. -/
theorem C2_poll_exits_on_first_all_ones_byte (R fuel : Nat)
    (h : ∃ k, k < fuel ∧ R ≤ 560 * k + 15) :
    ∃ s' k, pollLoop (releaseEnv R) fuel initW = some s' ∧
      s'.time = 560 * (k + 1) ∧ R ≤ 560 * k + 15 ∧
      ∀ j, j < k → 560 * j + 15 < R := by
  have h' : ∃ k, k < fuel ∧ R ≤ initW.time + 560 * k + 15 := by
    simpa [initW] using h
  obtain ⟨s', k, hp, ht, hb, hj⟩ := pollLoop_release fuel initW R h'
  exact ⟨s', k, hp, by simpa [initW] using ht, by simpa [initW] using hb,
    fun j hjk => by simpa [initW] using hj j hjk⟩

/-- Claim C2 witness: a sensor releasing at 600 µs (mid-byte) is left
behind by a poll with fuel 3. -/
theorem C2_poll_exits_witness :
    (2 < 3 ∧ 600 ≤ 560 * 2 + 15) ∧
      (pollLoop (releaseEnv 600) 3 initW).isSome = true := by
  refine ⟨⟨by omega, by omega⟩, ?_⟩
  obtain ⟨s', k, hp, -, -, -⟩ :=
    C2_poll_exits_on_first_all_ones_byte 600 3 ⟨2, by omega, by omega⟩
  rw [hp]
  rfl

/-! ## Claims C1 and C10: the read sequencer's result -/

/-- Claim C1: `Temperature` returns the scratchpad's first little-endian
16-bit word (as a signed value) with no error exactly when the initial
reset saw presence (returned 0) and the CRC over all 9 scratchpad bytes
is 0; with no presence it reports `DeviceNotFound`, and with a nonzero
CRC it reports `CrcMismatch`, in both cases without a valid reading. -/
theorem C1_temperature_validation (rd : Nat) (scratch : List Nat) :
    (Temperature rd scratch =
        ⟨toSigned16 (DataWords0 scratch), none⟩ ↔
        rd = 0 ∧ OneWireCRC scratch 9 = 0) ∧
      (rd ≠ 0 →
        Temperature rd scratch = ⟨0, some TempError.DeviceNotFound⟩) ∧
      (rd = 0 → OneWireCRC scratch 9 ≠ 0 →
        Temperature rd scratch = ⟨0, some TempError.CrcMismatch⟩) := by
  by_cases h1 : rd = 0 <;> by_cases h2 : OneWireCRC scratch 9 = 0 <;>
    simp [Temperature, h1, h2]

/-- Claim C1 witness: with no presence (reset byte 1) the call reports
`DeviceNotFound`. -/
theorem C1_temperature_validation_witness :
    Temperature 1 (List.replicate 9 0) =
      ⟨0, some TempError.DeviceNotFound⟩ :=
  (C1_temperature_validation 1 (List.replicate 9 0)).2.1 (by decide)

/-- Claim C10: both failure paths return the integer 0, which is also
exactly what a genuine valid reading of 0/16 ° returns (e.g. the
all-zero scratchpad, whose CRC is 0), so the sentinel is
indistinguishable from a real zero reading by return value alone. -/
theorem C10_zero_sentinel_ambiguity (rd : Nat) (scratch : List Nat)
    (hrd : rd ≠ 0) (hcrc : OneWireCRC scratch 9 ≠ 0) :
    (Temperature rd scratch).value = 0 ∧
      (Temperature 0 scratch).value = 0 ∧
      Temperature 0 (List.replicate 9 0) = ⟨0, none⟩ := by
  refine ⟨?_, ?_, ?_⟩
  · simp [Temperature, hrd]
  · simp [Temperature, hcrc]
  · decide

/-- Claim C10 witness: reset byte 1 and a scratchpad of nine 0xFF
bytes (whose CRC is nonzero). -/
theorem C10_zero_sentinel_ambiguity_witness :
    OneWireCRC (List.replicate 9 0xFF) 9 ≠ 0 ∧
      (Temperature 1 (List.replicate 9 0xFF)).value = 0 ∧
      (Temperature 0 (List.replicate 9 0xFF)).value = 0 :=
  ⟨by decide,
    (C10_zero_sentinel_ambiguity 1 (List.replicate 9 0xFF) (by decide)
      (by decide)).1,
    (C10_zero_sentinel_ambiguity 1 (List.replicate 9 0xFF) (by decide)
      (by decide)).2.1⟩

/-! ## Claim C9: the Flash display encoding -/

theorem flash_eq_spec :
    ∀ v : Fin 256, Flash v.val = flashSpecList v.val := by
  decide

/-- Claim C9: for every 8-bit value, `Flash` pulses once per bit from
the most significant set bit down to bit 0 — red for 1, green for 0 —
never pulsing leading zero bits; 0 gives exactly one (green) pulse via
the forced `i == 0` case, and 0x0F gives exactly four (red) pulses for
bit pattern 1111. -/
theorem C9_flash_encoding (v : Nat) (h : v < 256) :
    Flash v = flashSpecList v ∧
      (Flash v).length = msbIndex v + 1 ∧
      Flash 0 = [LEDPulse.green] ∧
      Flash 0x0F = [LEDPulse.red, LEDPulse.red, LEDPulse.red, LEDPulse.red] := by
  refine ⟨flash_eq_spec ⟨v, h⟩, ?_, by decide, by decide⟩
  rw [flash_eq_spec ⟨v, h⟩]
  simp [flashSpecList]

/-- Claim C9 witness at the value 0x0F singled out by the spec. -/
theorem C9_flash_encoding_witness :
    (0x0F : Nat) < 256 ∧ Flash 0x0F = flashSpecList 0x0F :=
  ⟨by decide, (C9_flash_encoding 0x0F (by decide)).1⟩

/-! ## Claim C7: one-shot sleep -/

/-- Claim C7: each `WDDelay` call arms WDIE, wakes on exactly one
interrupt whose handler only clears WDIE, and leaves neither the enable
flag nor a pending interrupt behind; hence two sequential code-9 sleeps
(the 16-second pause of `loop()`) produce exactly two wake events, each
disarming itself. -/
theorem C7_sleep_one_shot (s : WDState) :
    ∃ s1 s2,
      WDDelay 9 s = some s1 ∧ WDDelay 9 s1 = some s2 ∧
      (wdArm 9 s).wdtcsr.testBit WDIEbit = true ∧
      s1.wakes = s.wakes + 1 ∧ s2.wakes = s.wakes + 2 ∧
      s1.wdtcsr.testBit WDIEbit = false ∧
      s2.wdtcsr.testBit WDIEbit = false ∧
      s1.wdif = false ∧ s2.wdif = false ∧
      (∀ t : WDState, wdtISR t = { t with wdtcsr := 0 }) := by
  have hb : Nat.testBit 97 6 = true := rfl
  have harm : ∀ t : WDState, wdArm 9 t = ⟨97, t.wdif, t.wakes⟩ := fun _ => rfl
  have h1 : WDDelay 9 s = some ⟨0, false, s.wakes + 1⟩ := by
    rw [WDDelay, harm]
    unfold sleepCpu
    simp [WDIEbit, wdtISR, hb, Nat.zero_shiftLeft]
  have h2 : WDDelay 9 ⟨0, false, s.wakes + 1⟩ =
      some ⟨0, false, s.wakes + 2⟩ := by
    rw [WDDelay, harm]
    unfold sleepCpu
    simp [WDIEbit, wdtISR, hb, Nat.zero_shiftLeft]
  exact ⟨⟨0, false, s.wakes + 1⟩, ⟨0, false, s.wakes + 2⟩, h1, h2,
    (by decide : Nat.testBit (1 <<< 6 ||| ((9 &&& 0x8) <<< 2) ||| (9 &&& 0x7)) 6 = true),
    rfl, rfl,
    (by decide : Nat.testBit 0 6 = false),
    (by decide : Nat.testBit 0 6 = false),
    rfl, rfl,
    fun _ => rfl⟩

end ATtiny10
